import Mathlib

/-!
Shallow embedding of the `codec_agences` ingestion scripts
(fetch_and_parse_articles_{ANSA, APS_CHINE, AZERTAC_FR, MAP_FR, MENA}.py).

Modelling conventions:
* Python strings are Lean `String`s; file contents arrive already decoded
  (the chardet/encoding step is outside the modelled fragment, and any
  decoding exception is folded into the generic exception modelling below).
* Python exceptions are made explicit with `Except PyErr`; a `try/except`
  boundary that returns `None` is `Except.toOption`.
* The regex character class `\d` is modelled as ASCII digits, `[a-z]`/`[A-Z]`
  as the ASCII letter ranges, and `str.strip()` / `splitlines()` /
  `readlines()` work on the ASCII whitespace and the newline character.
* MySQL tables are Lean lists; `INSERT` is an append, `SELECT MAX` a fold.
-/

namespace Codec

/-- Kinds of Python exceptions that the modelled code can raise. -/
inductive PyErr where
  | indexError
  | nameError
  deriving DecidableEq, Repr

/-- `true` exactly on the values an `Except` computation returns normally
(no exception escapes). -/
def exceptOk {ε α : Type} : Except ε α → Bool
  | .ok _ => true
  | .error _ => false

instance {ε α : Type} [DecidableEq ε] [DecidableEq α] : DecidableEq (Except ε α) := by
  intro a b
  cases a <;> cases b
  case error.error e1 e2 =>
    exact if h : e1 = e2 then isTrue (by rw [h]) else isFalse (by simp [h])
  case error.ok e1 a2 => exact isFalse (by simp)
  case ok.error a1 e2 => exact isFalse (by simp)
  case ok.ok a1 a2 =>
    exact if h : a1 = a2 then isTrue (by rw [h]) else isFalse (by simp [h])

/-- Characters removed by Python `str.strip()` (ASCII whitespace). -/
def pySpace (c : Char) : Bool :=
  c = ' ' || c = '\t' || c = '\n' || c = '\r' || c.toNat = 11 || c.toNat = 12

/-- Python `str.strip()`: drop leading and trailing whitespace. -/
def pyStrip (s : String) : String :=
  ⟨((s.data.dropWhile pySpace).reverse.dropWhile pySpace).reverse⟩

/-- Python `list[i]`: the element at index `i`, or an `IndexError`. -/
def nth {α : Type} (l : List α) (i : Nat) : Except PyErr α :=
  match l.get? i with
  | some a => .ok a
  | none => .error .indexError

/-- Helper for `readlines`: accumulate the current line (reversed) while
scanning; a newline closes the line and is KEPT at its end. -/
def readlinesAux (acc : List Char) : List Char → List String
  | [] => if acc.isEmpty then [] else [String.mk acc.reverse]
  | c :: cs =>
    if c = '\n' then String.mk (acc.reverse ++ ['\n']) :: readlinesAux [] cs
    else readlinesAux (c :: acc) cs

/-- Python `file.readlines()` on already-decoded content: split at newlines,
keeping each newline at the end of its line. -/
def readlines (s : String) : List String :=
  readlinesAux [] s.data

/-- Helper for `splitlines`: like `readlinesAux` but the newline terminator
is DROPPED from each line. -/
def splitlinesAux (acc : List Char) : List Char → List String
  | [] => if acc.isEmpty then [] else [String.mk acc.reverse]
  | c :: cs =>
    if c = '\n' then String.mk acc.reverse :: splitlinesAux [] cs
    else splitlinesAux (c :: acc) cs

/-- Python `str.splitlines()`: split at newlines, dropping the terminators. -/
def splitlines (s : String) : List String :=
  splitlinesAux [] s.data

/-- Python `"".join(lines)`. -/
def joinAll (ls : List String) : String :=
  ⟨(ls.map String.data).flatten⟩

/-- Characters matched by the scrub regex
`[\u0000-\u0008\u000B\u000C\u000E-\u001F\u007F-\u009F]`
shared by `clean_text` in MAP_FR and MENA. -/
def removedChar (c : Char) : Bool :=
  c.toNat ≤ 0x8 || c.toNat = 0xB || c.toNat = 0xC ||
    (0xE ≤ c.toNat && c.toNat ≤ 0x1F) || (0x7F ≤ c.toNat && c.toNat ≤ 0x9F)

/-- `re.sub(pattern, '', text)` for a single-character class: scan the text
and drop every matching character. -/
def cleanChars : List Char → List Char
  | [] => []
  | c :: cs => if removedChar c then cleanChars cs else c :: cleanChars cs

/-- `clean_text` from MAP_FR / MENA: remove the control characters matched by
the scrub regex. -/
def clean_text (s : String) : String :=
  ⟨cleanChars s.data⟩

/-- `name.endswith(suf)` / a `$`-anchored regex suffix, on the character
list; returns the stem with the suffix removed when it matches. -/
def dropSuffix? (s suf : String) : Option String :=
  if suf.data.length ≤ s.data.length ∧
      s.data.drop (s.data.length - suf.data.length) = suf.data then
    some ⟨s.data.take (s.data.length - suf.data.length)⟩
  else none

/-- `str.endswith`, via `dropSuffix?`. -/
def endsWithStr (s suf : String) : Bool :=
  (dropSuffix? s suf).isSome

namespace Ansa

/-- `re.search(r'_A\d{3}(\d+)\.xml$', file_name)` (group 1): the name must end
in `.xml` preceded by a digit run of length at least 4 whose head is directly
preceded by `_A`; the group is that run minus its first three digits. -/
def labelSearch (file_name : String) : Option String :=
  match dropSuffix? file_name ".xml" with
  | none => none
  | some stem =>
    let rev := stem.data.reverse
    let ds := rev.takeWhile Char.isDigit
    let rest := rev.drop ds.length
    if 4 ≤ ds.length ∧ rest.take 2 = ['A', '_'] then
      some ⟨ds.reverse.drop 3⟩
    else none

/-- `extract_label` (ANSA): the regex group when the pattern matches, `None`
otherwise. -/
def extract_label (file_name : String) : Option String :=
  match labelSearch file_name with
  | some g => some g
  | none => none

end Ansa

namespace Mena

/-- `re.search(r'^\d+', text)`: the leading digit run, when non-empty. -/
def labelSearch (text : String) : Option String :=
  let ds := text.data.takeWhile Char.isDigit
  if ds.isEmpty then none else some ⟨ds⟩

/-- `get_label` (MENA): the matched digit run or `None`; the
`agency_folder` argument is accepted and ignored, as in the source. -/
def get_label (text : String) (_agency_folder : String) : Option String :=
  match labelSearch text with
  | some m => some m
  | none => none

end Mena

namespace MapFr

/-- One attempt of `re.search(r"MAP(\d+)", text)` at the current position:
literal `MAP` followed by at least one digit; the group is the maximal digit
run after `MAP`. -/
def labelSearchAux : List Char → Option String
  | [] => none
  | c :: cs =>
    if c = 'M' ∧ cs.take 2 = ['A', 'P'] ∧ ¬((cs.drop 2).takeWhile Char.isDigit).isEmpty then
      some ⟨(cs.drop 2).takeWhile Char.isDigit⟩
    else labelSearchAux cs

/-- `re.search(r"MAP(\d+)", text)` (group 1): leftmost occurrence. -/
def labelSearch (text : String) : Option String :=
  labelSearchAux text.data

/-- `get_label` (MAP_FR): the matched digit run, or the string `"0"` when the
regex finds no match. -/
def get_label (text : String) : String :=
  match labelSearch text with
  | some m => m
  | none => "0"

end MapFr

namespace AzertacFr

/-- `re.search(r'_(\d+)\.xml$', text)` (group 1): the name must end in `.xml`
preceded by a non-empty digit run directly preceded by `_`. -/
def labelSearch (text : String) : Option String :=
  match dropSuffix? text ".xml" with
  | none => none
  | some stem =>
    let rev := stem.data.reverse
    let ds := rev.takeWhile Char.isDigit
    let rest := rev.drop ds.length
    if ¬ds.isEmpty ∧ rest.take 1 = ['_'] then some ⟨ds.reverse⟩ else none

/-- `get_label` (AZERTAC_FR): the matched digit run, or the string `"0"` when
the regex finds no match. -/
def get_label (text : String) : String :=
  match labelSearch text with
  | some m => m
  | none => "0"

end AzertacFr

namespace ApsChine

/-- ASCII `[a-z]`. -/
def isAsciiLower (c : Char) : Bool := 'a' ≤ c && c ≤ 'z'

/-- ASCII `[A-Z]`. -/
def isAsciiUpper (c : Char) : Bool := 'A' ≤ c && c ≤ 'Z'

/-- Decimal value of a digit run. -/
def digitsToNat (ds : List Char) : Nat :=
  ds.foldl (fun acc c => acc * 10 + (c.toNat - 48)) 0

/-- Attempt `([a-z]{3})([A-Z])(\d{6})_` at the head of the character list,
returning the letter group and the digit group. -/
def matchAt (l : List Char) : Option (String × String) :=
  let letters := l.take 3
  match l.drop 3 with
  | [] => none
  | u :: rest =>
    let ds := rest.take 6
    if letters.length = 3 ∧ letters.all isAsciiLower ∧ isAsciiUpper u ∧
        ds.length = 6 ∧ ds.all Char.isDigit ∧ (rest.drop 6).take 1 = ['_'] then
      some (⟨letters⟩, ⟨ds⟩)
    else none

/-- `re.match(r'^.*?([a-z]{3})([A-Z])(\d{6})_', file_name)`: the lazy prefix
means the earliest position where the tail pattern matches. -/
def labelSearch : List Char → Option (String × String)
  | [] => none
  | c :: cs =>
    match matchAt (c :: cs) with
    | some r => some r
    | none => labelSearch cs

/-- `extract_label` (APS_CHINE): only the two `chine_nouvelles` folders have a
pattern; on a match the label is the letters followed by the first four
characters of `str(int(digits))` (leading zeros stripped). -/
def extract_label (file_name : String) (agency_folder : String) : Option String :=
  if agency_folder = "chine_nouvelles_fr" ∨ agency_folder = "chine_nouvelles_ar" then
    match labelSearch file_name.data with
    | some (letters, digits) =>
      some (letters ++ ⟨(toString (digitsToNat digits.data)).data.take 4⟩)
    | none => none
  else none

end ApsChine

/-- The dictionary each parser returns on success: the canonical article
fields before `created_date` / `id_agency` are attached by the caller.
`label` is `Option` because some variants put Python `None` there. -/
structure Parsed where
  title : String
  slug : String
  full_text : String
  label : Option String
  file_name : String
  deriving DecidableEq, Repr

namespace Mena

/-- `parse_txt` (MENA) on decoded content — NOTE: unlike every other variant
this parser has no `try/except`, so the `IndexError` of `lines[2]`/`lines[3]`
and the `NameError` of `lines.index(line)` (loop variable unbound when
`lines[4:]` is empty) propagate to the caller.  `file_name` stands for
`os.path.basename(file_path)`. -/
def parse_txt (content : String) (file_name : String) (agency_folder : String) :
    Except PyErr Parsed := do
  let lines := readlines content
  let line2 ← nth lines 2
  let line3 ← nth lines 3
  let label := get_label (pyStrip line2) agency_folder
  let slug := pyStrip line3
  let tail := lines.drop 4
  let titleLines := (tail.takeWhile (fun l => !(pyStrip l).isEmpty)).map pyStrip
  let title := String.intercalate " " titleLines
  if tail.isEmpty then
    .error .nameError
  else
    .ok {
      label := label
      title := clean_text title
      slug := clean_text slug
      full_text := clean_text (pyStrip (joinAll lines))
      file_name := file_name
    }

end Mena

namespace MapFr

/-- The body of the `try` block of `parse_txt` (MAP_FR): fixed line positions
project label (line 1), slug (line 3), title (line 4); `full_text` is ALL the
lines re-joined with newlines (the variant excluding the header lines is
commented out in the source). -/
def parseBody (content : String) (file_name : String) : Except PyErr Parsed := do
  let lines := splitlines content
  let line1 ← nth lines 1
  let label := get_label (pyStrip line1)
  let line3 ← nth lines 3
  let line4 ← nth lines 4
  .ok {
    label := some label
    title := clean_text (pyStrip line4)
    slug := clean_text (pyStrip line3)
    full_text := clean_text (pyStrip (String.intercalate "\n" lines))
    file_name := file_name
  }

/-- `parse_txt` (MAP_FR): the whole body sits in `try/except`, so every
exception is caught and `None` returned. -/
def parse_txt (content : String) (file_name : String) : Option Parsed :=
  (parseBody content file_name).toOption

end MapFr

namespace Ansa

/-- The fields `parse_xml` (ANSA) projects out of the `xmltodict` tree
(`nitf/head/title` and `nitf/body/body.content/block/p`); `none` stands for
any exception raised while reading, decoding, or projecting, all of which the
source catches. -/
structure NitfDoc where
  title : String
  body : String
  deriving DecidableEq, Repr

/-- `parse_xml` (ANSA): on a successfully projected document, build the
record with `slug = " "` and the label extracted from the file name; every
exception inside the `try` yields `None`. -/
def parse_xml (doc : Option NitfDoc) (file_name : String) : Option Parsed :=
  match doc with
  | none => none
  | some d =>
    some {
      title := d.title
      label := extract_label file_name
      slug := " "
      full_text := d.body
      file_name := file_name
    }

end Ansa

namespace AzertacFr

/-- The fields `parse_xml` (AZERTAC_FR) projects out of the `xmltodict` tree
(`news/title` and `news/body`); `none` stands for any exception inside the
`try`, which the source catches. -/
structure NewsDoc where
  title : String
  body : String
  deriving DecidableEq, Repr

/-- `parse_xml` (AZERTAC_FR): `slug = " "`, label from the file name (always
a string, `"0"` when the regex finds no match); exceptions yield `None`. -/
def parse_xml (doc : Option NewsDoc) (file_name : String) : Option Parsed :=
  match doc with
  | none => none
  | some d =>
    some {
      title := d.title
      label := some (get_label file_name)
      slug := " "
      full_text := d.body
      file_name := file_name
    }

end AzertacFr

namespace ApsChine

/-- The fields `parse_xml` (APS_CHINE) projects out of the `xmltodict` tree:
for the CNML branch headline / keywords / data content, for the NewsML branch
headline / label text / slug line / data content.  `docLabel` is the NewsML
`Identification/Label/LabelText`.  `none` stands for any exception inside the
`try`, which the source catches. -/
structure XmlFields where
  headline : String
  slug : String
  body : String
  docLabel : String
  deriving DecidableEq, Repr

/-- `parse_xml` (APS_CHINE): the `chine_nouvelles` folders take the label from
the file name, the APS folders from the document. -/
def parse_xml (doc : Option XmlFields) (agency_folder : String) (file_name : String) :
    Option Parsed :=
  match doc with
  | none => none
  | some d =>
    if agency_folder = "chine_nouvelles_ar" ∨ agency_folder = "chine_nouvelles_fr" then
      some {
        title := d.headline
        label := extract_label file_name agency_folder
        slug := d.slug
        full_text := d.body
        file_name := file_name
      }
    else
      some {
        title := d.headline
        label := some d.docLabel
        slug := d.slug
        full_text := d.body
        file_name := file_name
      }

end ApsChine

/-! ### Database model

`online2024_articles` and `processedfiles` as append-only lists; timestamps
(`created_date`, file modification times) as `Nat`. -/

/-- A row of `online2024_articles`. -/
structure Article where
  title : String
  slug : String
  full_text : String
  file_name : String
  label : Option String
  created_date : Nat
  id_agency : Nat
  deriving DecidableEq, Repr

/-- A row of `processedfiles`. -/
structure LedgerEntry where
  file_name : String
  id_agency : Nat
  created_date : Nat
  deriving DecidableEq, Repr

/-- The two tables the pipeline writes. -/
structure DBState where
  articles : List Article
  processedfiles : List LedgerEntry
  deriving DecidableEq, Repr

/-- `MAX` over a list of dates, `none` on the empty list. -/
def maxDate : List Nat → Option Nat
  | [] => none
  | d :: ds =>
    match maxDate ds with
    | none => some d
    | some m => some (Nat.max d m)

/-- `get_last_processed_time`: `SELECT MAX(created_date) FROM processedfiles
WHERE id_agency = %s` (the per-agency watermark). -/
def get_last_processed_time (agency_id : Nat) (db : DBState) : Option Nat :=
  maxDate ((db.processedfiles.filter (fun e => e.id_agency == agency_id)).map
    (fun e => e.created_date))

/-- `is_file_processed`: `SELECT 1 FROM processedfiles WHERE file_name = %s`
— the check is by file name alone, not scoped to the agency. -/
def is_file_processed (file_name : String) (db : DBState) : Bool :=
  db.processedfiles.any (fun e => e.file_name == file_name)

/-- `mark_file_as_processed`: append a `processedfiles` row. -/
def mark_file_as_processed (file_name : String) (agency_id created_date : Nat)
    (db : DBState) : DBState :=
  { db with processedfiles := db.processedfiles ++ [⟨file_name, agency_id, created_date⟩] }

/-- `insert_into_db`: append an `online2024_articles` row built from the
parse result plus `created_date` and `id_agency`. -/
def insert_into_db (d : Parsed) (agency_id created_date : Nat) (db : DBState) : DBState :=
  { db with articles := db.articles ++
      [⟨d.title, d.slug, d.full_text, d.file_name, d.label, created_date, agency_id⟩] }

/-! ### Pipeline model

One candidate file carries its name, its modification time and its (already
fetched/decoded) content; the content type `γ` differs per variant.  The
environment says which storage writes raise, standing for MySQL errors or
duplicate-key violations. -/

/-- A candidate file as seen by one pass. -/
structure FileEntry (γ : Type) where
  name : String
  mtime : Nat
  content : γ

/-- Which storage writes raise during this run. -/
structure Env where
  insertFails : String → Bool
  markFails : String → Bool

/-- The environment in which every storage write succeeds. -/
def Env.allOk : Env := ⟨fun _ => false, fun _ => false⟩

/-- Exit point of a single candidate file. -/
inductive FileOutcome where
  | skippedExt
  | skippedStale
  | skippedDup
  | skippedParse
  | committed
  | failedInsert
  | failedMark
  deriving DecidableEq, Repr

/-- The per-variant differences of the shared loop shape:
the extension filter applied to the file name (constantly `true` for the
variants that have none), the parser (an exception escaping it is caught by
the surrounding `try/except` of the loop), and whether the
`insert/mark` `except` block ends in `raise`. -/
structure Variant (γ : Type) where
  extFilter : String → Bool
  parse : γ → String → Except PyErr (Option Parsed)
  reraiseOnDbError : Bool

/-- The watermark filter: `last_processed_time and created_date <=
last_processed_time`. -/
def wmSkip (wm : Option Nat) (mtime : Nat) : Bool :=
  match wm with
  | some w => mtime ≤ w
  | none => false

/-- One iteration of the per-file loop body shared by all five scripts:
extension filter, watermark filter, ledger filter, parse, insert, mark.
Returns the database after the iteration, the file's exit point, and whether
`is_file_processed` was queried for this file. -/
def processFile {γ : Type} (v : Variant γ) (env : Env) (agency_id : Nat)
    (wm : Option Nat) (db : DBState) (f : FileEntry γ) :
    DBState × FileOutcome × Bool :=
  if !v.extFilter f.name then (db, .skippedExt, false)
  else if wmSkip wm f.mtime then (db, .skippedStale, false)
  else if is_file_processed f.name db then (db, .skippedDup, true)
  else
    match v.parse f.content f.name with
    | .error _ => (db, .skippedParse, true)
    | .ok none => (db, .skippedParse, true)
    | .ok (some d) =>
      if env.insertFails f.name then (db, .failedInsert, true)
      else
        let db1 := insert_into_db d agency_id f.mtime db
        if env.markFails f.name then (db1, .failedMark, true)
        else (mark_file_as_processed f.name agency_id f.mtime db1, .committed, true)

/-- Result of one agency pass: the final database, the `(name, outcome)` of
each file the loop reached, and whether an uncaught exception aborted the
loop (the ANSA/MENA `raise`). -/
structure RunResult where
  db : DBState
  outcomes : List (String × FileOutcome)
  aborted : Bool
  deriving DecidableEq, Repr

/-- The per-file loop over the listed candidates, with the watermark fixed at
its start-of-pass value; the variants whose `except` block re-raises abort
the loop on a storage failure. -/
def runFiles {γ : Type} (v : Variant γ) (env : Env) (agency_id : Nat)
    (wm : Option Nat) : DBState → List (FileEntry γ) → RunResult
  | db, [] => ⟨db, [], false⟩
  | db, f :: fs =>
    let step := processFile v env agency_id wm db f
    if v.reraiseOnDbError ∧ (step.2.1 = .failedInsert ∨ step.2.1 = .failedMark) then
      ⟨step.1, [(f.name, step.2.1)], true⟩
    else
      let r := runFiles v env agency_id wm step.1 fs
      ⟨r.db, (f.name, step.2.1) :: r.outcomes, r.aborted⟩

/-- One agency pass: read the watermark once, then run the loop. -/
def runPass {γ : Type} (v : Variant γ) (env : Env) (agency_id : Nat)
    (db : DBState) (files : List (FileEntry γ)) : RunResult :=
  runFiles v env agency_id (get_last_processed_time agency_id db) db files

/-- Extension filter of ANSA: `.xml` or `.txt`. -/
def xmlTxtExt (name : String) : Bool :=
  endsWithStr name ".xml" || endsWithStr name ".txt"

/-- Extension filter of MAP_FR: `.xml`, `.txt` or `.DAT`. -/
def xmlTxtDatExt (name : String) : Bool :=
  endsWithStr name ".xml" || endsWithStr name ".txt" || endsWithStr name ".DAT"

/-- ANSA `main` loop: extension filter, `raise` in the storage `except`. -/
def Ansa.variant : Variant (Option Ansa.NitfDoc) :=
  ⟨xmlTxtExt, fun c n => .ok (Ansa.parse_xml c n), true⟩

/-- APS_CHINE `main` loop: no extension filter, storage errors only logged. -/
def ApsChine.variant (agency_folder : String) : Variant (Option ApsChine.XmlFields) :=
  ⟨fun _ => true, fun c n => .ok (ApsChine.parse_xml c agency_folder n), false⟩

/-- MENA `main` loop: no extension filter, `raise` in the storage `except`;
the parser itself can raise, which the parse `except` of the loop catches. -/
def Mena.variant : Variant String :=
  ⟨fun _ => true, fun c n => (Mena.parse_txt c n "mena").map some, true⟩

/-- MAP_FR `process_mapl_from_ftp` loop: extension filter including `.DAT`,
per-file `try` without `raise`. -/
def MapFr.variant : Variant String :=
  ⟨xmlTxtDatExt, fun c n => .ok (MapFr.parse_txt c n), false⟩

/-- AZERTAC_FR `process_azertacFr_from_sftp` loop: no extension filter,
per-file `try` without `raise`. -/
def AzertacFr.variant : Variant (Option AzertacFr.NewsDoc) :=
  ⟨fun _ => true, fun c n => .ok (AzertacFr.parse_xml c n), false⟩

/-! ### FTP year inference (MAP_FR) -/

/-- A Python `datetime.date`. -/
structure PyDate where
  year : Nat
  month : Nat
  day : Nat
  deriving DecidableEq, Repr

/-- `date` comparison: lexicographic on (year, month, day). -/
def dateLt (a b : PyDate) : Bool :=
  a.year < b.year ||
    (a.year == b.year && (a.month < b.month ||
      (a.month == b.month && a.day < b.day)))

/-- The year-inference step of `process_mapl_from_ftp`: the listing line
yields only month, day and time, the timestamp is built with the current
year, and when the resulting date lies strictly after today it is rebuilt
with the previous year. -/
def inferYear (month day : Nat) (current : PyDate) : PyDate :=
  let mt : PyDate := ⟨current.year, month, day⟩
  if dateLt current mt then ⟨current.year - 1, month, day⟩ else mt

/-! ### Auxiliary notions used by the statements -/

/-- The four exit points at which a file produces no database write at all. -/
def isSkip : FileOutcome → Bool
  | .skippedExt => true
  | .skippedStale => true
  | .skippedDup => true
  | .skippedParse => true
  | _ => false

/-- Outcomes in which the loop went past the ledger check, i.e. the file was
fetched and handed to the parser. -/
def reachedParse : FileOutcome → Bool
  | .skippedExt => false
  | .skippedStale => false
  | .skippedDup => false
  | _ => true

/-- A candidate that one of the loop's deterministic guards disposes of at
the given database state: wrong extension, stale modification time, already
in the ledger, or a content its parser rejects. -/
def resolvedFile {γ : Type} (v : Variant γ) (wm : Option Nat) (db : DBState)
    (f : FileEntry γ) : Prop :=
  v.extFilter f.name = false ∨ wmSkip wm f.mtime = true ∨
    is_file_processed f.name db = true ∨
    ∀ d, v.parse f.content f.name ≠ .ok (some d)

/-- Watermark comparison: every value the first is defined at, the second
dominates. -/
def wmLe (a b : Option Nat) : Prop :=
  ∀ w, a = some w → ∃ w', b = some w' ∧ w ≤ w'

/-- The control-code ranges named by the specification of `clean_text`:
U+0000–U+0008, U+000B, U+000C, U+000E–U+001F and U+007F–U+009F. -/
def specControlChar (c : Char) : Bool :=
  [(0x0, 0x8), (0xB, 0xB), (0xC, 0xC), (0xE, 0x1F), (0x7F, 0x9F)].any
    (fun p => p.1 ≤ c.toNat && c.toNat ≤ p.2)

/-- A well-formed MENA plain-text sample: five header lines, a blank line,
a body. -/
def sampleMena : String := "l0\nl1\n12\nslug\ntitle\n\nbody\n"

/-! ## Theorems -/

@[simp] lemma exceptOk_ok {ε α : Type} (a : α) : exceptOk (Except.ok (ε := ε) a) = true := rfl

@[simp] lemma exceptOk_error {ε α : Type} (e : ε) : exceptOk (Except.error (α := α) e) = false := rfl

@[simp] lemma except_bind_ok {ε α β : Type} (a : α) (f : α → Except ε β) :
    (Except.ok (ε := ε) a >>= f) = f a := rfl

@[simp] lemma except_bind_error {ε α β : Type} (e : ε) (f : α → Except ε β) :
    (Except.error (α := α) e >>= f) = Except.error e := rfl

lemma nth_ok_of_lt {α : Type} {l : List α} {i : Nat} (h : i < l.length) :
    ∃ a, nth l i = Except.ok a := by
  refine ⟨l.get ⟨i, h⟩, ?_⟩
  simp [nth, List.get?_eq_getElem?, List.getElem?_eq_getElem h]

lemma nth_error_of_le {α : Type} {l : List α} {i : Nat} (h : l.length ≤ i) :
    nth l i = Except.error PyErr.indexError := by
  unfold nth
  rw [List.get?_eq_getElem?, List.getElem?_eq_none h]

lemma readlinesAux_flatten (l acc : List Char) :
    ((readlinesAux acc l).map String.data).flatten = acc.reverse ++ l := by
  induction l generalizing acc with
  | nil =>
    by_cases h : acc.isEmpty
    · rw [List.isEmpty_eq_true] at h
      simp [readlinesAux, h]
    · simp [readlinesAux, h]
  | cons c cs ih =>
    by_cases h : c = '\n'
    · subst h
      simp [readlinesAux, ih]
    · simp [readlinesAux, h, ih]

lemma joinAll_readlines (s : String) : joinAll (readlines s) = s := by
  show String.mk (((readlinesAux [] s.data).map String.data).flatten) = s
  rw [readlinesAux_flatten]
  rfl

/-- Success of the MENA plain-text parser is exactly "the file has at least
five lines": with at most two lines `lines[2]` raises `IndexError`, with
three `lines[3]` does, with exactly four the loop over `lines[4:]` never
binds its variable and `lines.index(line)` raises `NameError`. -/
lemma mena_parse_ok_iff (content file_name folder : String) :
    exceptOk (Mena.parse_txt content file_name folder) = true ↔
      5 ≤ (readlines content).length := by
  unfold Mena.parse_txt
  by_cases h5 : 5 ≤ (readlines content).length
  · obtain ⟨a2, ha2⟩ := nth_ok_of_lt (l := readlines content) (i := 2) (by omega)
    obtain ⟨a3, ha3⟩ := nth_ok_of_lt (l := readlines content) (i := 3) (by omega)
    have htail : ((readlines content).drop 4).isEmpty = false := by
      cases hd : ((readlines content).drop 4).isEmpty
      · rfl
      · rw [List.isEmpty_eq_true, List.drop_eq_nil_iff] at hd
        omega
    simp [ha2, ha3, htail, h5]
  · by_cases h3 : (readlines content).length ≤ 2
    · simp [nth_error_of_le h3, h5]
    · by_cases h4 : (readlines content).length ≤ 3
      · obtain ⟨a2, ha2⟩ := nth_ok_of_lt (l := readlines content) (i := 2) (by omega)
        simp [ha2, nth_error_of_le h4, h5]
      · obtain ⟨a2, ha2⟩ := nth_ok_of_lt (l := readlines content) (i := 2) (by omega)
        obtain ⟨a3, ha3⟩ := nth_ok_of_lt (l := readlines content) (i := 3) (by omega)
        have htail : ((readlines content).drop 4).isEmpty = true := by
          rw [List.isEmpty_eq_true, List.drop_eq_nil_iff]
          omega
        simp [ha2, ha3, htail, h5]

/-- On success the MENA parser stores the whole raw content, stripped and
scrubbed, as `full_text` (`"".join(lines)` undoes `readlines`). -/
lemma mena_parse_full_text (content file_name folder : String) (d : Parsed)
    (h : Mena.parse_txt content file_name folder = .ok d) :
    d.full_text = clean_text (pyStrip content) := by
  unfold Mena.parse_txt at h
  rcases hn2 : nth (readlines content) 2 with e2 | a2 <;>
      simp only [hn2, except_bind_error, except_bind_ok] at h
  · exact absurd h (by simp)
  rcases hn3 : nth (readlines content) 3 with e3 | a3 <;>
      simp only [hn3, except_bind_error, except_bind_ok] at h
  · exact absurd h (by simp)
  by_cases htail : ((readlines content).drop 4).isEmpty = true
  · rw [if_pos htail] at h
    exact absurd h (by simp)
  · rw [if_neg htail] at h
    injection h with h
    subst h
    show clean_text (pyStrip (joinAll (readlines content))) = clean_text (pyStrip content)
    rw [joinAll_readlines]

/-- On success the MAP_FR parser stores all the split lines, re-joined with
newlines, stripped and scrubbed, as `full_text`. -/
lemma map_parse_full_text (content file_name : String) (d : Parsed)
    (h : MapFr.parse_txt content file_name = some d) :
    d.full_text = clean_text (pyStrip (String.intercalate "\n" (splitlines content))) := by
  unfold MapFr.parse_txt MapFr.parseBody at h
  rcases hn1 : nth (splitlines content) 1 with e1 | a1 <;>
      simp only [hn1, except_bind_error, except_bind_ok] at h
  · exact absurd h (by simp [Except.toOption])
  rcases hn3 : nth (splitlines content) 3 with e3 | a3 <;>
      simp only [hn3, except_bind_error, except_bind_ok] at h
  · exact absurd h (by simp [Except.toOption])
  rcases hn4 : nth (splitlines content) 4 with e4 | a4 <;>
      simp only [hn4, except_bind_error, except_bind_ok] at h
  · exact absurd h (by simp [Except.toOption])
  simp only [Except.toOption] at h
  injection h with h
  subst h
  rfl

/-- With at least five lines the MAP_FR parser succeeds (whatever the label
regex matched). -/
lemma map_parse_isSome (content file_name : String)
    (h : 5 ≤ (splitlines content).length) :
    (MapFr.parse_txt content file_name).isSome = true := by
  unfold MapFr.parse_txt MapFr.parseBody
  obtain ⟨a1, ha1⟩ := nth_ok_of_lt (l := splitlines content) (i := 1) (by omega)
  obtain ⟨a3, ha3⟩ := nth_ok_of_lt (l := splitlines content) (i := 3) (by omega)
  obtain ⟨a4, ha4⟩ := nth_ok_of_lt (l := splitlines content) (i := 4) (by omega)
  simp [ha1, ha3, ha4, Except.toOption]

lemma removedChar_eq_specControlChar (c : Char) : removedChar c = specControlChar c := by
  have h : removedChar c = true ↔ specControlChar c = true := by
    simp [removedChar, specControlChar]
    omega
  cases hr : removedChar c <;> cases hc : specControlChar c <;> simp_all

lemma cleanChars_eq_filter (l : List Char) :
    cleanChars l = l.filter (fun c => !removedChar c) := by
  induction l with
  | nil => rfl
  | cons c cs ih =>
    by_cases h : removedChar c <;> simp [cleanChars, h, ih, List.filter_cons]

lemma wmLe_refl (a : Option Nat) : wmLe a a :=
  fun w h => ⟨w, h, Nat.le_refl w⟩

lemma wmLe_trans {a b c : Option Nat} (h1 : wmLe a b) (h2 : wmLe b c) : wmLe a c := by
  intro w hw
  obtain ⟨w1, hw1, hle1⟩ := h1 w hw
  obtain ⟨w2, hw2, hle2⟩ := h2 w1 hw1
  exact ⟨w2, hw2, Nat.le_trans hle1 hle2⟩

lemma maxDate_append_mono (A B : List Nat) (w : Nat) (h : maxDate A = some w) :
    ∃ w', maxDate (A ++ B) = some w' ∧ w ≤ w' := by
  induction A generalizing w with
  | nil => simp [maxDate] at h
  | cons d ds ih =>
    rw [List.cons_append]
    unfold maxDate at h ⊢
    rcases hds : maxDate ds with _ | m <;> rw [hds] at h
    · injection h with h
      subst h
      rcases hB : maxDate (ds ++ B) with _ | m'
      · exact ⟨d, rfl, Nat.le_refl d⟩
      · exact ⟨Nat.max d m', rfl, Nat.le_max_left _ _⟩
    · injection h with h
      obtain ⟨m', hm', hle⟩ := ih m hds
      rw [hm']
      refine ⟨Nat.max d m', rfl, ?_⟩
      subst h
      exact max_le_max (Nat.le_refl d) hle

lemma get_last_mono (agency_id : Nat) (db db' : DBState) (ex : List LedgerEntry)
    (hx : db'.processedfiles = db.processedfiles ++ ex) :
    wmLe (get_last_processed_time agency_id db) (get_last_processed_time agency_id db') := by
  intro w hw
  unfold get_last_processed_time at hw ⊢
  rw [hx, List.filter_append, List.map_append]
  exact maxDate_append_mono _ _ w hw

lemma is_file_processed_mono (n : String) (db db' : DBState) (ex : List LedgerEntry)
    (hx : db'.processedfiles = db.processedfiles ++ ex)
    (h : is_file_processed n db = true) : is_file_processed n db' = true := by
  unfold is_file_processed at h ⊢
  rw [hx, List.any_append, h, Bool.true_or]

lemma is_file_processed_mark (n : String) (agency_id cd : Nat) (db : DBState) :
    is_file_processed n (mark_file_as_processed n agency_id cd db) = true := by
  simp [is_file_processed, mark_file_as_processed, List.any_append]

lemma processFile_db_append {γ : Type} (v : Variant γ) (env : Env) (agency_id : Nat)
    (wm : Option Nat) (db : DBState) (f : FileEntry γ) :
    ∃ exA exP, (processFile v env agency_id wm db f).1.articles = db.articles ++ exA ∧
      (processFile v env agency_id wm db f).1.processedfiles = db.processedfiles ++ exP := by
  unfold processFile
  split
  · exact ⟨[], [], (List.append_nil _).symm, (List.append_nil _).symm⟩
  split
  · exact ⟨[], [], (List.append_nil _).symm, (List.append_nil _).symm⟩
  split
  · exact ⟨[], [], (List.append_nil _).symm, (List.append_nil _).symm⟩
  split
  · exact ⟨[], [], (List.append_nil _).symm, (List.append_nil _).symm⟩
  · exact ⟨[], [], (List.append_nil _).symm, (List.append_nil _).symm⟩
  · split
    · exact ⟨[], [], (List.append_nil _).symm, (List.append_nil _).symm⟩
    split
    · exact ⟨_, [], rfl, (List.append_nil _).symm⟩
    · exact ⟨_, _, rfl, rfl⟩

lemma runFiles_db_append {γ : Type} (v : Variant γ) (env : Env) (agency_id : Nat)
    (wm : Option Nat) (files : List (FileEntry γ)) :
    ∀ db : DBState,
      ∃ exA exP, (runFiles v env agency_id wm db files).db.articles = db.articles ++ exA ∧
        (runFiles v env agency_id wm db files).db.processedfiles =
          db.processedfiles ++ exP := by
  induction files with
  | nil =>
    intro db
    exact ⟨[], [], by simp [runFiles], by simp [runFiles]⟩
  | cons g gs ih =>
    intro db
    obtain ⟨a1, p1, h1, h2⟩ := processFile_db_append v env agency_id wm db g
    simp only [runFiles]
    split
    · exact ⟨a1, p1, h1, h2⟩
    · obtain ⟨a2, p2, h3, h4⟩ := ih (processFile v env agency_id wm db g).1
      exact ⟨a1 ++ a2, p1 ++ p2, by rw [h3, h1, List.append_assoc],
        by rw [h4, h2, List.append_assoc]⟩

lemma processFile_no_dbfail {γ : Type} (v : Variant γ) (env : Env) (agency_id : Nat)
    (wm : Option Nat) (db : DBState) (f : FileEntry γ)
    (hi : env.insertFails f.name = false) (hm : env.markFails f.name = false) :
    (processFile v env agency_id wm db f).2.1 ≠ FileOutcome.failedInsert ∧
      (processFile v env agency_id wm db f).2.1 ≠ FileOutcome.failedMark := by
  unfold processFile
  split
  · simp
  split
  · simp
  split
  · simp
  split
  · simp
  · simp
  · split
    · simp_all
    split
    · simp_all
    · simp

lemma runFiles_cons_db {γ : Type} (v : Variant γ) (env : Env) (agency_id : Nat)
    (wm : Option Nat) (db : DBState) (g : FileEntry γ) (gs : List (FileEntry γ))
    (h1 : (processFile v env agency_id wm db g).2.1 ≠ FileOutcome.failedInsert)
    (h2 : (processFile v env agency_id wm db g).2.1 ≠ FileOutcome.failedMark) :
    (runFiles v env agency_id wm db (g :: gs)).db =
      (runFiles v env agency_id wm (processFile v env agency_id wm db g).1 gs).db := by
  simp only [runFiles]
  rw [if_neg]
  rintro ⟨_, h | h⟩
  · exact h1 h
  · exact h2 h

lemma runFiles_cons_aborted {γ : Type} (v : Variant γ) (env : Env) (agency_id : Nat)
    (wm : Option Nat) (db : DBState) (g : FileEntry γ) (gs : List (FileEntry γ))
    (h1 : (processFile v env agency_id wm db g).2.1 ≠ FileOutcome.failedInsert)
    (h2 : (processFile v env agency_id wm db g).2.1 ≠ FileOutcome.failedMark) :
    (runFiles v env agency_id wm db (g :: gs)).aborted =
      (runFiles v env agency_id wm (processFile v env agency_id wm db g).1 gs).aborted := by
  simp only [runFiles]
  rw [if_neg]
  rintro ⟨_, h | h⟩
  · exact h1 h
  · exact h2 h

lemma runFiles_cons_outcomes {γ : Type} (v : Variant γ) (env : Env) (agency_id : Nat)
    (wm : Option Nat) (db : DBState) (g : FileEntry γ) (gs : List (FileEntry γ))
    (h1 : (processFile v env agency_id wm db g).2.1 ≠ FileOutcome.failedInsert)
    (h2 : (processFile v env agency_id wm db g).2.1 ≠ FileOutcome.failedMark) :
    (runFiles v env agency_id wm db (g :: gs)).outcomes =
      (g.name, (processFile v env agency_id wm db g).2.1) ::
        (runFiles v env agency_id wm (processFile v env agency_id wm db g).1 gs).outcomes := by
  simp only [runFiles]
  rw [if_neg]
  rintro ⟨_, h | h⟩
  · exact h1 h
  · exact h2 h

lemma processFile_resolved {γ : Type} (v : Variant γ) (env : Env) (agency_id : Nat)
    (wm : Option Nat) (db : DBState) (f : FileEntry γ)
    (h : resolvedFile v wm db f) :
    (processFile v env agency_id wm db f).1 = db ∧
      isSkip (processFile v env agency_id wm db f).2.1 = true := by
  rcases h with h | h | h | h
  · simp [processFile, h, isSkip]
  · unfold processFile
    cases hx : v.extFilter f.name with
    | false => simp [isSkip]
    | true => simp [h, isSkip]
  · unfold processFile
    cases hx : v.extFilter f.name with
    | false => simp [isSkip]
    | true =>
      cases hw : wmSkip wm f.mtime with
      | true => simp [hw, isSkip]
      | false => simp [hw, h, isSkip]
  · unfold processFile
    cases hx : v.extFilter f.name with
    | false => simp [isSkip]
    | true =>
      cases hw : wmSkip wm f.mtime with
      | true => simp [hw, isSkip]
      | false =>
        cases hp : is_file_processed f.name db with
        | true => simp [hw, hp, isSkip]
        | false =>
          rcases hq : v.parse f.content f.name with e | od
          · simp [hw, hp, hq, isSkip]
          · rcases od with _ | d
            · simp [hw, hp, hq, isSkip]
            · exact absurd hq (h d)

lemma processFile_allOk_commits {γ : Type} (v : Variant γ) (agency_id : Nat)
    (wm : Option Nat) (db : DBState) (f : FileEntry γ) (d : Parsed)
    (hx : v.extFilter f.name = true) (hw : wmSkip wm f.mtime = false)
    (hp : is_file_processed f.name db = false)
    (hq : v.parse f.content f.name = Except.ok (some d)) :
    processFile v Env.allOk agency_id wm db f =
      (mark_file_as_processed f.name agency_id f.mtime
          (insert_into_db d agency_id f.mtime db),
        FileOutcome.committed, true) := by
  unfold processFile
  simp [hx, hw, hp, hq, Env.allOk]

lemma runFiles_resolved_noop {γ : Type} (v : Variant γ) (env : Env) (agency_id : Nat)
    (wm : Option Nat) :
    ∀ (files : List (FileEntry γ)) (db : DBState),
      (∀ f ∈ files, resolvedFile v wm db f) →
      (runFiles v env agency_id wm db files).db = db ∧
        (runFiles v env agency_id wm db files).aborted = false ∧
        (runFiles v env agency_id wm db files).outcomes.all (fun p => isSkip p.2) = true := by
  intro files
  induction files with
  | nil => intro db _; exact ⟨rfl, rfl, rfl⟩
  | cons g gs ih =>
    intro db h
    obtain ⟨hdb, hskip⟩ :=
      processFile_resolved v env agency_id wm db g (h g (List.mem_cons_self g gs))
    have hni : (processFile v env agency_id wm db g).2.1 ≠ FileOutcome.failedInsert := by
      intro he
      rw [he] at hskip
      simp [isSkip] at hskip
    have hnm : (processFile v env agency_id wm db g).2.1 ≠ FileOutcome.failedMark := by
      intro he
      rw [he] at hskip
      simp [isSkip] at hskip
    obtain ⟨h2, h3, h4⟩ := ih db (fun f hf => h f (List.mem_cons_of_mem g hf))
    refine ⟨?_, ?_, ?_⟩
    · rw [runFiles_cons_db v env agency_id wm db g gs hni hnm, hdb]
      exact h2
    · rw [runFiles_cons_aborted v env agency_id wm db g gs hni hnm, hdb]
      exact h3
    · rw [runFiles_cons_outcomes v env agency_id wm db g gs hni hnm, hdb]
      simp [hskip, h4]

lemma runFiles_allOk_resolves {γ : Type} (v : Variant γ) (agency_id : Nat)
    (wm : Option Nat) :
    ∀ (files : List (FileEntry γ)) (db : DBState),
      wmLe wm (get_last_processed_time agency_id db) →
      ∀ f ∈ files,
        resolvedFile v
          (get_last_processed_time agency_id
            (runFiles v Env.allOk agency_id wm db files).db)
          (runFiles v Env.allOk agency_id wm db files).db f := by
  intro files
  induction files with
  | nil => intro db _ f hf; cases hf
  | cons g gs ih =>
    intro db hwm f hf
    have hnd := processFile_no_dbfail v Env.allOk agency_id wm db g rfl rfl
    rw [runFiles_cons_db v Env.allOk agency_id wm db g gs hnd.1 hnd.2]
    obtain ⟨aP, pP, hP1, hP2⟩ := processFile_db_append v Env.allOk agency_id wm db g
    obtain ⟨aR, pR, hR1, hR2⟩ :=
      runFiles_db_append v Env.allOk agency_id wm gs (processFile v Env.allOk agency_id wm db g).1
    have hmono1 : wmLe (get_last_processed_time agency_id db)
        (get_last_processed_time agency_id (processFile v Env.allOk agency_id wm db g).1) :=
      get_last_mono _ _ _ _ hP2
    have hmono2 : wmLe
        (get_last_processed_time agency_id (processFile v Env.allOk agency_id wm db g).1)
        (get_last_processed_time agency_id
          (runFiles v Env.allOk agency_id wm (processFile v Env.allOk agency_id wm db g).1 gs).db) :=
      get_last_mono _ _ _ _ hR2
    rcases List.mem_cons.mp hf with rfl | hf'
    · cases hx : v.extFilter f.name with
      | false => exact Or.inl hx
      | true =>
        cases hw : wmSkip wm f.mtime with
        | true =>
          right; left
          obtain ⟨w, hwm_eq, hle_w⟩ : ∃ w, wm = some w ∧ f.mtime ≤ w := by
            cases wm with
            | none => simp [wmSkip] at hw
            | some w => exact ⟨w, rfl, by simpa [wmSkip] using hw⟩
          obtain ⟨w0, h0, l0⟩ := hwm w hwm_eq
          obtain ⟨w1, hh1, l1⟩ := hmono1 w0 h0
          obtain ⟨w2, hh2, l2⟩ := hmono2 w1 hh1
          rw [hh2]
          simp only [wmSkip, decide_eq_true_eq]
          omega
        | false =>
          cases hp : is_file_processed f.name db with
          | true =>
            right; right; left
            exact is_file_processed_mono _ _ _ _ hR2
              (is_file_processed_mono _ _ _ _ hP2 hp)
          | false =>
            rcases hq : v.parse f.content f.name with e | od
            · right; right; right
              intro d hd
              rw [hq] at hd
              cases hd
            · rcases od with _ | d
              · right; right; right
                intro d hd
                rw [hq] at hd
                injection hd with hd
                cases hd
              · right; right; left
                have hcommit := processFile_allOk_commits v agency_id wm db f d hx hw hp hq
                have hmem : is_file_processed f.name
                    (processFile v Env.allOk agency_id wm db f).1 = true := by
                  rw [hcommit]
                  exact is_file_processed_mark _ _ _ _
                exact is_file_processed_mono _ _ _ _ hR2 hmem
    · exact ih (processFile v Env.allOk agency_id wm db g).1 (wmLe_trans hwm hmono1) f hf'

/-- On success the MENA parser copies its `file_name` argument into the
result. -/
lemma mena_parse_file_name (content file_name folder : String) (d : Parsed)
    (h : Mena.parse_txt content file_name folder = .ok d) : d.file_name = file_name := by
  unfold Mena.parse_txt at h
  rcases hn2 : nth (readlines content) 2 with e2 | a2 <;>
      simp only [hn2, except_bind_error, except_bind_ok] at h
  · exact absurd h (by simp)
  rcases hn3 : nth (readlines content) 3 with e3 | a3 <;>
      simp only [hn3, except_bind_error, except_bind_ok] at h
  · exact absurd h (by simp)
  by_cases htail : ((readlines content).drop 4).isEmpty = true
  · rw [if_pos htail] at h
    exact absurd h (by simp)
  · rw [if_neg htail] at h
    injection h with h
    subst h
    rfl

/-- On success the MAP_FR parser copies its `file_name` argument into the
result. -/
lemma map_parse_file_name (content file_name : String) (d : Parsed)
    (h : MapFr.parse_txt content file_name = some d) : d.file_name = file_name := by
  unfold MapFr.parse_txt MapFr.parseBody at h
  rcases hn1 : nth (splitlines content) 1 with e1 | a1 <;>
      simp only [hn1, except_bind_error, except_bind_ok] at h
  · exact absurd h (by simp [Except.toOption])
  rcases hn3 : nth (splitlines content) 3 with e3 | a3 <;>
      simp only [hn3, except_bind_error, except_bind_ok] at h
  · exact absurd h (by simp [Except.toOption])
  rcases hn4 : nth (splitlines content) 4 with e4 | a4 <;>
      simp only [hn4, except_bind_error, except_bind_ok] at h
  · exact absurd h (by simp [Except.toOption])
  simp only [Except.toOption] at h
  injection h with h
  subst h
  rfl

lemma processFile_covered {γ : Type} (v : Variant γ) (env : Env) (agency_id : Nat)
    (wm : Option Nat) (db : DBState) (f : FileEntry γ) (base : List LedgerEntry)
    (hname : ∀ c n d, v.parse c n = Except.ok (some d) → d.file_name = n)
    (h : ∀ e ∈ db.processedfiles, e ∈ base ∨ ∃ a ∈ db.articles,
        a.file_name = e.file_name ∧ a.id_agency = e.id_agency ∧
          a.created_date = e.created_date) :
    ∀ e ∈ (processFile v env agency_id wm db f).1.processedfiles,
      e ∈ base ∨ ∃ a ∈ (processFile v env agency_id wm db f).1.articles,
        a.file_name = e.file_name ∧ a.id_agency = e.id_agency ∧
          a.created_date = e.created_date := by
  unfold processFile
  split
  · exact h
  split
  · exact h
  split
  · exact h
  split
  · exact h
  · exact h
  · split
    · exact h
    split
    · intro e he
      rcases h e he with hb | ⟨a, ha, hfa⟩
      · exact Or.inl hb
      · exact Or.inr ⟨a, List.mem_append_left _ ha, hfa⟩
    · rename_i d hq hins hmk
      intro e he
      rcases List.mem_append.mp he with he' | he'
      · rcases h e he' with hb | ⟨a, ha, hfa⟩
        · exact Or.inl hb
        · exact Or.inr ⟨a, List.mem_append_left _ ha, hfa⟩
      · rw [List.mem_singleton] at he'
        subst he'
        refine Or.inr ⟨⟨d.title, d.slug, d.full_text, d.file_name, d.label, f.mtime, agency_id⟩,
          List.mem_append_right _ (List.mem_singleton.mpr rfl), ?_, rfl, rfl⟩
        exact hname f.content f.name d hq

lemma runFiles_covered {γ : Type} (v : Variant γ) (env : Env) (agency_id : Nat)
    (wm : Option Nat) (base : List LedgerEntry)
    (hname : ∀ c n d, v.parse c n = Except.ok (some d) → d.file_name = n) :
    ∀ (files : List (FileEntry γ)) (db : DBState),
      (∀ e ∈ db.processedfiles, e ∈ base ∨ ∃ a ∈ db.articles,
        a.file_name = e.file_name ∧ a.id_agency = e.id_agency ∧
          a.created_date = e.created_date) →
      ∀ e ∈ (runFiles v env agency_id wm db files).db.processedfiles,
        e ∈ base ∨ ∃ a ∈ (runFiles v env agency_id wm db files).db.articles,
          a.file_name = e.file_name ∧ a.id_agency = e.id_agency ∧
            a.created_date = e.created_date := by
  intro files
  induction files with
  | nil => intro db h; exact h
  | cons g gs ih =>
    intro db h
    simp only [runFiles]
    split
    · exact processFile_covered v env agency_id wm db g base hname h
    · exact ih (processFile v env agency_id wm db g).1
        (processFile_covered v env agency_id wm db g base hname h)

/-- Claim C1 (amended): re-running a pass over an unchanged candidate list,
with every storage write succeeding, changes nothing — every candidate of the
second pass exits through one of the four skip states (wrong extension,
stale against the (possibly advanced) watermark, already in the ledger, or
the same deterministic parse failure as in the first pass), so zero article
rows and zero ledger rows are inserted. -/
theorem c1_second_pass_inserts_nothing {γ : Type} (v : Variant γ) (agency_id : Nat)
    (db0 : DBState) (files : List (FileEntry γ)) :
    (runPass v Env.allOk agency_id (runPass v Env.allOk agency_id db0 files).db files).db =
        (runPass v Env.allOk agency_id db0 files).db ∧
      (runPass v Env.allOk agency_id
        (runPass v Env.allOk agency_id db0 files).db files).aborted = false ∧
      ((runPass v Env.allOk agency_id
        (runPass v Env.allOk agency_id db0 files).db files).outcomes.all
          (fun p => isSkip p.2)) = true := by
  have hres := runFiles_allOk_resolves v agency_id
    (get_last_processed_time agency_id db0) files db0 (wmLe_refl _)
  exact runFiles_resolved_noop v Env.allOk agency_id _ files _ hres

/-- Counterexample to claim C1 as stated: after a completed pass over a
single malformed file, the second pass still inserts nothing, but its one
candidate is eliminated by the repeated parse failure — by neither the
watermark filter nor the ledger filter. -/
theorem c1_counterexample :
    (runPass Mena.variant Env.allOk 9 ⟨[], []⟩ [⟨"bad.txt", 10, "x"⟩]).db =
        (⟨[], []⟩ : DBState) ∧
      (runPass Mena.variant Env.allOk 9
          (runPass Mena.variant Env.allOk 9 ⟨[], []⟩ [⟨"bad.txt", 10, "x"⟩]).db
          [⟨"bad.txt", 10, "x"⟩]).outcomes =
        [("bad.txt", FileOutcome.skippedParse)] ∧
      FileOutcome.skippedParse ≠ FileOutcome.skippedStale ∧
      FileOutcome.skippedParse ≠ FileOutcome.skippedDup := by
  refine ⟨rfl, rfl, by decide, by decide⟩

/-- Claim C2: in every variant the article insert strictly precedes the
ledger write; a failing insert leaves the database (both tables) untouched,
and every ledger row a run adds has a matching article row (same file name,
agency, date) — given that the variant's parser echoes back the file name it
was handed, which all five do. -/
theorem c2_no_ghost_ledger {γ : Type} (v : Variant γ) (env : Env) (agency_id : Nat)
    (db0 : DBState) (files : List (FileEntry γ)) :
    ((∀ c n d, v.parse c n = Except.ok (some d) → d.file_name = n) →
      ∀ e ∈ (runPass v env agency_id db0 files).db.processedfiles,
        e ∈ db0.processedfiles ∨
          ∃ a ∈ (runPass v env agency_id db0 files).db.articles,
            a.file_name = e.file_name ∧ a.id_agency = e.id_agency ∧
              a.created_date = e.created_date) ∧
      (∀ wm db f, env.insertFails f.name = true →
        (processFile v env agency_id wm db f).1 = db) ∧
      (∀ c n d, Mena.variant.parse c n = Except.ok (some d) → d.file_name = n) ∧
      (∀ c n d, Ansa.variant.parse c n = Except.ok (some d) → d.file_name = n) ∧
      (∀ folder c n d,
        (ApsChine.variant folder).parse c n = Except.ok (some d) → d.file_name = n) ∧
      (∀ c n d, MapFr.variant.parse c n = Except.ok (some d) → d.file_name = n) ∧
      (∀ c n d, AzertacFr.variant.parse c n = Except.ok (some d) → d.file_name = n) := by
  refine ⟨?_, ?_, ?_, ?_, ?_, ?_, ?_⟩
  · intro hname
    exact runFiles_covered v env agency_id _ db0.processedfiles hname files db0
      (fun e he => Or.inl he)
  · intro wm db f hfail
    unfold processFile
    repeat' split
    all_goals rfl
  · intro c n d h
    rcases hp : Mena.parse_txt c n "mena" with e | p <;>
        simp only [Mena.variant, Except.map, hp] at h
    · cases h
    · injection h with h
      injection h with h
      subst h
      exact mena_parse_file_name c n "mena" p hp
  · intro c n d h
    injection h with h
    cases c with
    | none => simp [Ansa.parse_xml] at h
    | some doc =>
      simp only [Ansa.parse_xml] at h
      injection h with h
      subst h
      rfl
  · intro folder c n d h
    injection h with h
    cases c with
    | none => simp [ApsChine.parse_xml] at h
    | some doc =>
      by_cases hf : folder = "chine_nouvelles_ar" ∨ folder = "chine_nouvelles_fr"
      · simp only [ApsChine.parse_xml, if_pos hf] at h
        injection h with h
        subst h
        rfl
      · simp only [ApsChine.parse_xml, if_neg hf] at h
        injection h with h
        subst h
        rfl
  · intro c n d h
    injection h with h
    exact map_parse_file_name c n d h
  · intro c n d h
    injection h with h
    cases c with
    | none => simp [AzertacFr.parse_xml] at h
    | some doc =>
      simp only [AzertacFr.parse_xml] at h
      injection h with h
      subst h
      rfl

/-- Witness for C2: a committed MENA file has its matching article row, and
at a file whose insert raises, `processFile` leaves the database unchanged
(so no ledger row is written). -/
theorem c2_no_ghost_ledger_witness :
    ((⟨"g.txt", 9, 10⟩ : LedgerEntry) ∈
        (runPass Mena.variant Env.allOk 9 ⟨[], []⟩
          [⟨"g.txt", 10, sampleMena⟩]).db.processedfiles) ∧
      ((⟨"g.txt", 9, 10⟩ : LedgerEntry) ∈ (⟨[], []⟩ : DBState).processedfiles ∨
        ∃ a ∈ (runPass Mena.variant Env.allOk 9 ⟨[], []⟩
            [⟨"g.txt", 10, sampleMena⟩]).db.articles,
          a.file_name = (⟨"g.txt", 9, 10⟩ : LedgerEntry).file_name ∧
            a.id_agency = (⟨"g.txt", 9, 10⟩ : LedgerEntry).id_agency ∧
            a.created_date = (⟨"g.txt", 9, 10⟩ : LedgerEntry).created_date) ∧
      ((⟨fun n => n == "x.txt", fun _ => false⟩ : Env).insertFails "x.txt" = true) ∧
      ((processFile Mena.variant ⟨fun n => n == "x.txt", fun _ => false⟩ 9 none ⟨[], []⟩
          ⟨"x.txt", 3, sampleMena⟩).1 = ⟨[], []⟩) := by
  refine ⟨by decide, ?_, by decide, ?_⟩
  · exact (c2_no_ghost_ledger Mena.variant Env.allOk 9 ⟨[], []⟩
        [⟨"g.txt", 10, sampleMena⟩]).1
      (c2_no_ghost_ledger Mena.variant Env.allOk 9 ⟨[], []⟩
        [⟨"g.txt", 10, sampleMena⟩]).2.2.1
      ⟨"g.txt", 9, 10⟩ (by decide)
  · exact (c2_no_ghost_ledger Mena.variant ⟨fun n => n == "x.txt", fun _ => false⟩ 9
        ⟨[], []⟩ []).2.1 none ⟨[], []⟩ ⟨"x.txt", 3, sampleMena⟩ (by decide)

lemma runFiles_noreraise_no_abort {γ : Type} (v : Variant γ) (env : Env)
    (agency_id : Nat) (wm : Option Nat) (hv : v.reraiseOnDbError = false) :
    ∀ (files : List (FileEntry γ)) (db : DBState),
      (runFiles v env agency_id wm db files).aborted = false := by
  intro files
  induction files with
  | nil => intro db; rfl
  | cons g gs ih =>
    intro db
    have hcond : ¬(v.reraiseOnDbError = true ∧
        ((processFile v env agency_id wm db g).2.1 = FileOutcome.failedInsert ∨
          (processFile v env agency_id wm db g).2.1 = FileOutcome.failedMark)) := by
      rintro ⟨hr, _⟩
      rw [hv] at hr
      exact Bool.false_ne_true hr
    simp only [runFiles]
    rw [if_neg hcond]
    exact ih _

lemma runFiles_okenv_no_abort {γ : Type} (v : Variant γ) (env : Env)
    (agency_id : Nat) (wm : Option Nat)
    (hi : ∀ n, env.insertFails n = false) (hm : ∀ n, env.markFails n = false) :
    ∀ (files : List (FileEntry γ)) (db : DBState),
      (runFiles v env agency_id wm db files).aborted = false := by
  intro files
  induction files with
  | nil => intro db; rfl
  | cons g gs ih =>
    intro db
    have hnd := processFile_no_dbfail v env agency_id wm db g (hi g.name) (hm g.name)
    rw [runFiles_cons_aborted v env agency_id wm db g gs hnd.1 hnd.2]
    exact ih _

/-- Claim C3 (amended): a parse-stage error never aborts a pass in any
variant, and in the variants whose storage `except` block does not end in
`raise` (APS_CHINE, MAP_FR, AZERTAC_FR) no per-file error at all aborts the
pass; but ANSA and MENA re-raise an insert/ledger-write error, aborting the
rest of the pass. -/
theorem c3_per_file_error_containment {γ : Type} (v : Variant γ) (env : Env)
    (agency_id : Nat) (db : DBState) (files : List (FileEntry γ)) :
    (v.reraiseOnDbError = false → (runPass v env agency_id db files).aborted = false) ∧
      ((∀ n, env.insertFails n = false) → (∀ n, env.markFails n = false) →
        (runPass v env agency_id db files).aborted = false) := by
  constructor
  · intro hv
    exact runFiles_noreraise_no_abort v env agency_id _ hv files db
  · intro hi hm
    exact runFiles_okenv_no_abort v env agency_id _ hi hm files db

/-- Witness for C3: a MAP_FR pass never aborts even when every storage write
raises, and a MENA pass does not abort when no storage write raises. -/
theorem c3_per_file_error_containment_witness :
    (MapFr.variant.reraiseOnDbError = false ∧
      (runPass MapFr.variant ⟨fun _ => true, fun _ => true⟩ 4 ⟨[], []⟩
        [⟨"a.txt", 7, "x\ny\nz\nw\nv"⟩]).aborted = false) ∧
      ((∀ n, Env.allOk.insertFails n = false) ∧ (∀ n, Env.allOk.markFails n = false) ∧
        (runPass Mena.variant Env.allOk 9 ⟨[], []⟩
          [⟨"b.txt", 5, sampleMena⟩]).aborted = false) :=
  ⟨⟨rfl,
    (c3_per_file_error_containment MapFr.variant ⟨fun _ => true, fun _ => true⟩ 4
      ⟨[], []⟩ [⟨"a.txt", 7, "x\ny\nz\nw\nv"⟩]).1 rfl⟩,
   ⟨fun _ => rfl, fun _ => rfl,
    (c3_per_file_error_containment Mena.variant Env.allOk 9 ⟨[], []⟩
      [⟨"b.txt", 5, sampleMena⟩]).2 (fun _ => rfl) (fun _ => rfl)⟩⟩

/-- Counterexample to claim C3 as stated: in the MENA pass an insert error on
the first file is logged and re-raised, aborting the loop — the second,
perfectly processable file is never reached and nothing is committed. -/
theorem c3_counterexample :
    (runPass Mena.variant ⟨fun n => n == "a.txt", fun _ => false⟩ 9 ⟨[], []⟩
        [⟨"a.txt", 10, sampleMena⟩, ⟨"b.txt", 5, sampleMena⟩]).aborted = true ∧
      (runPass Mena.variant ⟨fun n => n == "a.txt", fun _ => false⟩ 9 ⟨[], []⟩
        [⟨"a.txt", 10, sampleMena⟩, ⟨"b.txt", 5, sampleMena⟩]).outcomes =
        [("a.txt", FileOutcome.failedInsert)] ∧
      (runPass Mena.variant ⟨fun n => n == "a.txt", fun _ => false⟩ 9 ⟨[], []⟩
        [⟨"a.txt", 10, sampleMena⟩, ⟨"b.txt", 5, sampleMena⟩]).db.articles.any
          (fun a => a.file_name == "b.txt") = false := by
  refine ⟨rfl, rfl, rfl⟩

/-- Claim C5: a candidate at or below the start-of-pass watermark is skipped
with no ledger lookup and no database change; a candidate that reaches the
parser (so in particular every committed one) passed the watermark filter
and had `is_file_processed` answer `false`. -/
theorem c5_watermark_then_ledger {γ : Type} (v : Variant γ) (env : Env)
    (agency_id : Nat) (wm : Option Nat) (db : DBState) (f : FileEntry γ) :
    (wmSkip wm f.mtime = true →
      (processFile v env agency_id wm db f).1 = db ∧
        (processFile v env agency_id wm db f).2.2 = false) ∧
      (reachedParse (processFile v env agency_id wm db f).2.1 = true →
        wmSkip wm f.mtime = false ∧ is_file_processed f.name db = false ∧
          (processFile v env agency_id wm db f).2.2 = true) := by
  constructor
  · intro hw
    unfold processFile
    cases hx : v.extFilter f.name with
    | false => exact ⟨rfl, rfl⟩
    | true =>
      refine ⟨?_, ?_⟩ <;> simp [hx, hw]
  · intro hr
    unfold processFile at hr ⊢
    cases hx : v.extFilter f.name with
    | false => simp [hx, reachedParse] at hr
    | true =>
      cases hw : wmSkip wm f.mtime with
      | true => simp [hx, hw, reachedParse] at hr
      | false =>
        cases hp : is_file_processed f.name db with
        | true => simp [hx, hw, hp, reachedParse] at hr
        | false =>
          refine ⟨rfl, rfl, ?_⟩
          rcases hq : v.parse f.content f.name with e | od
          · simp [hx, hw, hp, hq]
          · rcases od with _ | d
            · simp [hx, hw, hp, hq]
            · by_cases hins : env.insertFails f.name <;>
                by_cases hmk : env.markFails f.name <;>
                simp [hx, hw, hp, hq, hins, hmk]

/-- Witness for C5: a stale MENA candidate is skipped without a ledger
lookup, and a fresh one reaches the parser only with the ledger answering
`false`. -/
theorem c5_watermark_then_ledger_witness :
    (wmSkip (some 10) 5 = true ∧
      ((processFile Mena.variant Env.allOk 9 (some 10) ⟨[], []⟩
          ⟨"old.txt", 5, sampleMena⟩).1 = ⟨[], []⟩ ∧
        (processFile Mena.variant Env.allOk 9 (some 10) ⟨[], []⟩
          ⟨"old.txt", 5, sampleMena⟩).2.2 = false)) ∧
      (reachedParse (processFile Mena.variant Env.allOk 9 none ⟨[], []⟩
          ⟨"new.txt", 20, sampleMena⟩).2.1 = true ∧
        (wmSkip none 20 = false ∧
          is_file_processed "new.txt" ⟨[], []⟩ = false ∧
          (processFile Mena.variant Env.allOk 9 none ⟨[], []⟩
            ⟨"new.txt", 20, sampleMena⟩).2.2 = true)) :=
  ⟨⟨by decide,
    (c5_watermark_then_ledger Mena.variant Env.allOk 9 (some 10) ⟨[], []⟩
      ⟨"old.txt", 5, sampleMena⟩).1 (by decide)⟩,
   ⟨by decide,
    (c5_watermark_then_ledger Mena.variant Env.allOk 9 none ⟨[], []⟩
      ⟨"new.txt", 20, sampleMena⟩).2 (by decide)⟩⟩

lemma processFile_ne_skippedExt {γ : Type} (v : Variant γ) (env : Env)
    (agency_id : Nat) (wm : Option Nat) (db : DBState) (f : FileEntry γ)
    (hv : v.extFilter f.name = true) :
    (processFile v env agency_id wm db f).2.1 ≠ FileOutcome.skippedExt := by
  unfold processFile
  split
  · rename_i hcond
    rw [hv] at hcond
    simp at hcond
  split
  · simp
  split
  · simp
  split
  · simp
  · simp
  · split
    · simp
    split
    · simp
    · simp

/-- Claim C6 (amended): only ANSA (`.xml`/`.txt`) and MAP_FR
(`.xml`/`.txt`/`.DAT`) filter candidates by extension before any fetch,
parse, or write; the MENA, APS_CHINE and AZERTAC_FR loops have no extension
filter and never produce the extension-skip exit. -/
theorem c6_extension_filter (env : Env) (agency_id : Nat) (wm : Option Nat)
    (db : DBState) (folder : String)
    (fa : FileEntry (Option Ansa.NitfDoc)) (ft : FileEntry String)
    (fm : FileEntry String) (fp : FileEntry (Option ApsChine.XmlFields))
    (fz : FileEntry (Option AzertacFr.NewsDoc)) :
    (xmlTxtExt fa.name = false →
      processFile Ansa.variant env agency_id wm db fa =
        (db, FileOutcome.skippedExt, false)) ∧
      (xmlTxtDatExt ft.name = false →
        processFile MapFr.variant env agency_id wm db ft =
          (db, FileOutcome.skippedExt, false)) ∧
      (processFile Mena.variant env agency_id wm db fm).2.1 ≠ FileOutcome.skippedExt ∧
      (processFile (ApsChine.variant folder) env agency_id wm db fp).2.1 ≠
        FileOutcome.skippedExt ∧
      (processFile AzertacFr.variant env agency_id wm db fz).2.1 ≠
        FileOutcome.skippedExt := by
  refine ⟨?_, ?_,
    processFile_ne_skippedExt Mena.variant env agency_id wm db fm rfl,
    processFile_ne_skippedExt (ApsChine.variant folder) env agency_id wm db fp rfl,
    processFile_ne_skippedExt AzertacFr.variant env agency_id wm db fz rfl⟩
  · intro h
    unfold processFile
    simp [Ansa.variant, h]
  · intro h
    unfold processFile
    simp [MapFr.variant, h]

/-- Witness for C6: a `.pdf` candidate is extension-skipped by the ANSA and
MAP_FR loops, and extension-skipped by none of the other three. -/
theorem c6_extension_filter_witness :
    (xmlTxtExt "report.pdf" = false ∧
      processFile Ansa.variant Env.allOk 22 none ⟨[], []⟩ ⟨"report.pdf", 10, none⟩ =
        (⟨[], []⟩, FileOutcome.skippedExt, false)) ∧
      (xmlTxtDatExt "report.pdf" = false ∧
        processFile MapFr.variant Env.allOk 4 none ⟨[], []⟩ ⟨"report.pdf", 10, "x"⟩ =
          (⟨[], []⟩, FileOutcome.skippedExt, false)) ∧
      (processFile Mena.variant Env.allOk 9 none ⟨[], []⟩
          ⟨"report.pdf", 10, sampleMena⟩).2.1 ≠ FileOutcome.skippedExt ∧
      (processFile (ApsChine.variant "aps_fr_xml") Env.allOk 2 none ⟨[], []⟩
          ⟨"report.pdf", 10, none⟩).2.1 ≠ FileOutcome.skippedExt ∧
      (processFile AzertacFr.variant Env.allOk 25 none ⟨[], []⟩
          ⟨"report.pdf", 10, none⟩).2.1 ≠ FileOutcome.skippedExt :=
  ⟨⟨by decide,
    (c6_extension_filter Env.allOk 22 none ⟨[], []⟩ "aps_fr_xml"
      ⟨"report.pdf", 10, none⟩ ⟨"report.pdf", 10, "x"⟩ ⟨"report.pdf", 10, sampleMena⟩
      ⟨"report.pdf", 10, none⟩ ⟨"report.pdf", 10, none⟩).1 (by decide)⟩,
   ⟨by decide,
    (c6_extension_filter Env.allOk 4 none ⟨[], []⟩ "aps_fr_xml"
      ⟨"report.pdf", 10, none⟩ ⟨"report.pdf", 10, "x"⟩ ⟨"report.pdf", 10, sampleMena⟩
      ⟨"report.pdf", 10, none⟩ ⟨"report.pdf", 10, none⟩).2.1 (by decide)⟩,
   (c6_extension_filter Env.allOk 9 none ⟨[], []⟩ "aps_fr_xml"
      ⟨"report.pdf", 10, none⟩ ⟨"report.pdf", 10, "x"⟩ ⟨"report.pdf", 10, sampleMena⟩
      ⟨"report.pdf", 10, none⟩ ⟨"report.pdf", 10, none⟩).2.2.1,
   (c6_extension_filter Env.allOk 2 none ⟨[], []⟩ "aps_fr_xml"
      ⟨"report.pdf", 10, none⟩ ⟨"report.pdf", 10, "x"⟩ ⟨"report.pdf", 10, sampleMena⟩
      ⟨"report.pdf", 10, none⟩ ⟨"report.pdf", 10, none⟩).2.2.2.1,
   (c6_extension_filter Env.allOk 25 none ⟨[], []⟩ "aps_fr_xml"
      ⟨"report.pdf", 10, none⟩ ⟨"report.pdf", 10, "x"⟩ ⟨"report.pdf", 10, sampleMena⟩
      ⟨"report.pdf", 10, none⟩ ⟨"report.pdf", 10, none⟩).2.2.2.2⟩

/-- Counterexample to claim C6 as stated: the MENA loop fetches, parses and
commits a well-formed file named `report.pdf` — an extension no variant is
supposed to accept. -/
theorem c6_counterexample :
    (runPass Mena.variant Env.allOk 9 ⟨[], []⟩
        [⟨"report.pdf", 10, sampleMena⟩]).outcomes =
        [("report.pdf", FileOutcome.committed)] ∧
      (runPass Mena.variant Env.allOk 9 ⟨[], []⟩
        [⟨"report.pdf", 10, sampleMena⟩]).db.articles.any
          (fun a => a.file_name == "report.pdf") = true ∧
      (runPass Mena.variant Env.allOk 9 ⟨[], []⟩
        [⟨"report.pdf", 10, sampleMena⟩]).db.processedfiles.any
          (fun e => e.file_name == "report.pdf") = true := by
  refine ⟨rfl, rfl, rfl⟩

/-- Claim C4 (amended): the ANSA, APS_CHINE, MAP_FR and AZERTAC_FR parsers
wrap their whole body in `try/except` and can never raise to their caller;
the MENA `parse_txt` has no such guard and raises (`IndexError`/`NameError`)
exactly when the decoded file has fewer than five lines. -/
theorem c4_parser_totality (content name folder : String)
    (nitf : Option Ansa.NitfDoc) (news : Option AzertacFr.NewsDoc)
    (xml : Option ApsChine.XmlFields) :
    exceptOk (Ansa.variant.parse nitf name) = true ∧
      exceptOk ((ApsChine.variant folder).parse xml name) = true ∧
      exceptOk (MapFr.variant.parse content name) = true ∧
      exceptOk (AzertacFr.variant.parse news name) = true ∧
      (exceptOk (Mena.parse_txt content name folder) = true ↔
        5 ≤ (readlines content).length) :=
  ⟨rfl, rfl, rfl, rfl, mena_parse_ok_iff content name folder⟩

/-- Counterexample to claim C4 as stated: the MENA parser raises on malformed
input instead of returning `None` — an empty file raises `IndexError` at
`lines[2]`, and a four-line file raises `NameError` at `lines.index(line)`. -/
theorem c4_counterexample :
    Mena.parse_txt "" "f.txt" "mena" = Except.error PyErr.indexError ∧
      Mena.parse_txt "l0\nl1\n12\nslug\n" "f.txt" "mena" =
        Except.error PyErr.nameError := by
  constructor <;> rfl

/-- Claim C8 (amended): when the per-dialect label regex finds no match, the
ANSA, MENA and APS_CHINE extractors yield `None`, but the MAP_FR and
AZERTAC_FR extractors yield the string `"0"`; in all variants a missing
label never by itself causes a parse failure (e.g. MAP_FR still succeeds on
any five-line file). -/
theorem c8_label_no_match (s name folder content : String) :
    (Mena.labelSearch s = none → Mena.get_label s folder = none) ∧
      (Ansa.labelSearch name = none → Ansa.extract_label name = none) ∧
      (ApsChine.labelSearch name.data = none →
        ApsChine.extract_label name folder = none) ∧
      (MapFr.labelSearch s = none → MapFr.get_label s = "0") ∧
      (AzertacFr.labelSearch name = none → AzertacFr.get_label name = "0") ∧
      (5 ≤ (splitlines content).length →
        (MapFr.parse_txt content name).isSome = true) := by
  refine ⟨?_, ?_, ?_, ?_, ?_, map_parse_isSome content name⟩
  · intro h
    simp [Mena.get_label, h]
  · intro h
    simp [Ansa.extract_label, h]
  · intro h
    unfold ApsChine.extract_label
    by_cases hf : folder = "chine_nouvelles_fr" ∨ folder = "chine_nouvelles_ar"
    · simp [hf, h]
    · simp [hf]
  · intro h
    simp [MapFr.get_label, h]
  · intro h
    simp [AzertacFr.get_label, h]

/-- Witness for C8 at concrete no-match inputs for each of the five
extractors, plus a five-line MAP_FR file with no label match. -/
theorem c8_label_no_match_witness :
    (Mena.labelSearch "abc" = none ∧ Mena.get_label "abc" "mena" = none) ∧
      (Ansa.labelSearch "f.txt" = none ∧ Ansa.extract_label "f.txt" = none) ∧
      (ApsChine.labelSearch "f.txt".data = none ∧
        ApsChine.extract_label "f.txt" "chine_nouvelles_fr" = none) ∧
      (MapFr.labelSearch "hello" = none ∧ MapFr.get_label "hello" = "0") ∧
      (AzertacFr.labelSearch "nolabel.txt" = none ∧
        AzertacFr.get_label "nolabel.txt" = "0") ∧
      (5 ≤ (splitlines "a\nb\nc\nd\ne").length ∧
        (MapFr.parse_txt "a\nb\nc\nd\ne" "m.txt").isSome = true) :=
  ⟨⟨by decide,
    (c8_label_no_match "abc" "f.txt" "chine_nouvelles_fr" "a\nb\nc\nd\ne").1 (by decide)⟩,
   ⟨by decide,
    (c8_label_no_match "abc" "f.txt" "chine_nouvelles_fr" "a\nb\nc\nd\ne").2.1 (by decide)⟩,
   ⟨by decide,
    (c8_label_no_match "abc" "f.txt" "chine_nouvelles_fr" "a\nb\nc\nd\ne").2.2.1 (by decide)⟩,
   ⟨by decide,
    (c8_label_no_match "hello" "f.txt" "chine_nouvelles_fr" "a\nb\nc\nd\ne").2.2.2.1 (by decide)⟩,
   ⟨by decide,
    (c8_label_no_match "abc" "nolabel.txt" "chine_nouvelles_fr" "a\nb\nc\nd\ne").2.2.2.2.1 (by decide)⟩,
   ⟨by decide,
    (c8_label_no_match "abc" "m.txt" "chine_nouvelles_fr" "a\nb\nc\nd\ne").2.2.2.2.2 (by decide)⟩⟩

/-- Counterexample to claim C8 as stated: on a no-match input the MAP_FR and
AZERTAC_FR extractors yield the non-null string `"0"`, not `None`, and the
stored label of a MAP_FR article with no match is `"0"`. -/
theorem c8_counterexample :
    MapFr.get_label "hello" = "0" ∧
      AzertacFr.get_label "nolabel.txt" = "0" ∧
      MapFr.parse_txt "A\nB\nC\nD\nE" "m.txt" =
        some ⟨"E", "D", "A\nB\nC\nD\nE", some "0", "m.txt"⟩ := by
  refine ⟨rfl, rfl, ?_⟩
  rfl

/-- Claim C9 (amended): BOTH fixed-layout plain-text parsers store the entire
decoded content (header lines included) as `full_text`: MENA re-joins all the
raw lines (recovering the content) and MAP_FR joins all the split lines with
newlines; neither excludes the already-extracted header lines. -/
theorem c9_full_text_includes_headers (content name folder : String)
    (d1 d2 : Parsed) :
    (Mena.parse_txt content name folder = Except.ok d1 →
      d1.full_text = clean_text (pyStrip content)) ∧
      (MapFr.parse_txt content name = some d2 →
        d2.full_text =
          clean_text (pyStrip (String.intercalate "\n" (splitlines content)))) :=
  ⟨mena_parse_full_text content name folder d1, map_parse_full_text content name d2⟩

/-- Witness for C9 at concrete well-formed inputs for both parsers. -/
theorem c9_full_text_includes_headers_witness :
    (Mena.parse_txt sampleMena "f.txt" "mena" =
        Except.ok ⟨"title", "slug", "l0\nl1\n12\nslug\ntitle\n\nbody", some "12", "f.txt"⟩) ∧
      (⟨"title", "slug", "l0\nl1\n12\nslug\ntitle\n\nbody", some "12", "f.txt"⟩ : Parsed).full_text =
        clean_text (pyStrip sampleMena) ∧
      (MapFr.parse_txt "L0\nMAP7\nL2\nSLUG\nTITLE\nBODY" "m.txt" =
        some ⟨"TITLE", "SLUG", "L0\nMAP7\nL2\nSLUG\nTITLE\nBODY", some "7", "m.txt"⟩) ∧
      (⟨"TITLE", "SLUG", "L0\nMAP7\nL2\nSLUG\nTITLE\nBODY", some "7", "m.txt"⟩ : Parsed).full_text =
        clean_text (pyStrip (String.intercalate "\n" (splitlines "L0\nMAP7\nL2\nSLUG\nTITLE\nBODY"))) :=
  ⟨by decide,
   (c9_full_text_includes_headers sampleMena "f.txt" "mena"
      ⟨"title", "slug", "l0\nl1\n12\nslug\ntitle\n\nbody", some "12", "f.txt"⟩
      ⟨"title", "slug", "l0\nl1\n12\nslug\ntitle\n\nbody", some "12", "f.txt"⟩).1 (by decide),
   by decide,
   (c9_full_text_includes_headers "L0\nMAP7\nL2\nSLUG\nTITLE\nBODY" "m.txt" "mena"
      ⟨"TITLE", "SLUG", "L0\nMAP7\nL2\nSLUG\nTITLE\nBODY", some "7", "m.txt"⟩
      ⟨"TITLE", "SLUG", "L0\nMAP7\nL2\nSLUG\nTITLE\nBODY", some "7", "m.txt"⟩).2 (by decide)⟩

/-- Counterexample to claim C9 as stated: at concrete inputs BOTH plain-text
parsers keep the header lines (the extracted slug line and title line) inside
`full_text`; no parser excludes them. -/
theorem c9_counterexample :
    MapFr.parse_txt "L0\nMAP9\nL2\nSLUGLINE\nTITLELINE\nBODY" "m.txt" =
        some ⟨"TITLELINE", "SLUGLINE", "L0\nMAP9\nL2\nSLUGLINE\nTITLELINE\nBODY",
          some "9", "m.txt"⟩ ∧
      Mena.parse_txt "h0\nh1\n34\nSLUGLINE\nTITLELINE\n\nBODY\n" "f.txt" "mena" =
        Except.ok ⟨"TITLELINE", "SLUGLINE", "h0\nh1\n34\nSLUGLINE\nTITLELINE\n\nBODY",
          some "34", "f.txt"⟩ := by
  constructor <;> rfl

/-- Claim C10: `clean_text` removes exactly the characters U+0000–U+0008,
U+000B, U+000C, U+000E–U+001F and U+007F–U+009F, keeping every other
character (tab, line feed and carriage return included) in its original
order, and is therefore idempotent. -/
theorem c10_clean_text_spec (s : String) :
    (clean_text s).data = s.data.filter (fun c => !specControlChar c) ∧
      clean_text (clean_text s) = clean_text s := by
  constructor
  · show cleanChars s.data = _
    rw [cleanChars_eq_filter]
    simp only [removedChar_eq_specControlChar]
  · show String.mk (cleanChars (cleanChars s.data)) = String.mk (cleanChars s.data)
    rw [cleanChars_eq_filter, cleanChars_eq_filter, List.filter_filter]
    simp

/-- Claim C7: the FTP year-inference step keeps the listed month and day,
uses the current year, and switches to the previous year exactly when the
date built with the current year lies strictly after today; in particular a
listing dated Dec 31 observed on 2024-01-02 resolves to 2023-12-31. -/
theorem c7_ftp_year_inference (m d : Nat) (cur : PyDate) (h : 0 < cur.year) :
    ((inferYear m d cur).month = m ∧ (inferYear m d cur).day = d) ∧
      ((inferYear m d cur).year = cur.year - 1 ↔
        dateLt cur ⟨cur.year, m, d⟩ = true) ∧
      (dateLt cur ⟨cur.year, m, d⟩ = false → (inferYear m d cur).year = cur.year) ∧
      inferYear 12 31 ⟨2024, 1, 2⟩ = ⟨2023, 12, 31⟩ := by
  by_cases hlt : dateLt cur ⟨cur.year, m, d⟩ = true
  · refine ⟨?_, ?_, ?_, by decide⟩ <;> simp [inferYear, hlt]
  · have hlt' : dateLt cur ⟨cur.year, m, d⟩ = false := by
      cases hd : dateLt cur ⟨cur.year, m, d⟩ <;> simp_all
    refine ⟨by simp [inferYear, hlt'], ?_, by simp [inferYear, hlt'], by decide⟩
    simp [inferYear, hlt']
    omega

/-- Witness for C7 at the year-boundary instance from the specification. -/
theorem c7_ftp_year_inference_witness :
    0 < (⟨2024, 1, 2⟩ : PyDate).year ∧
      (((inferYear 12 31 ⟨2024, 1, 2⟩).month = 12 ∧
          (inferYear 12 31 ⟨2024, 1, 2⟩).day = 31) ∧
        ((inferYear 12 31 ⟨2024, 1, 2⟩).year = (⟨2024, 1, 2⟩ : PyDate).year - 1 ↔
          dateLt ⟨2024, 1, 2⟩ ⟨2024, 12, 31⟩ = true) ∧
        (dateLt ⟨2024, 1, 2⟩ ⟨2024, 12, 31⟩ = false →
          (inferYear 12 31 ⟨2024, 1, 2⟩).year = 2024) ∧
        inferYear 12 31 ⟨2024, 1, 2⟩ = ⟨2023, 12, 31⟩) :=
  ⟨by decide, c7_ftp_year_inference 12 31 ⟨2024, 1, 2⟩ (by decide)⟩

end Codec
